import Mathlib

/-!
# Verification of the Gate.io futures trading adapter

Shallow embedding of `src/trader/gateio_futures.go`.

Modelling conventions:
* Go strings holding symbol names are modelled as `List Char` for the symbol
  normalizer (each element standing for one byte of the Go string), and as
  `String` elsewhere.
* Go `float64` arithmetic is modelled by exact arithmetic on `ℚ`; the claims
  under study use decimal values where binary floating point and exact
  arithmetic agree.  `fmt.Sprintf("%.Nf", x)` is modelled as rounding to `N`
  decimal digits (`fround`); the formatted decimal string is represented by
  the pair of its rational value and its digit count (`FmtResult`).
* Go `int64(x)` conversion from `float64` is truncation toward zero,
  modelled by `int64Trunc` (values are assumed within the `int64` range).
* Network calls (`GetMarketPrice`, `getSymbolInfo`, `GetPositions` upstream
  fetches) are modelled by an environment record `TraderEnv` holding the data
  those calls would return for the symbol under consideration; cached data
  is taken as already present in the environment.
* String fields that the Go code parses defensively (`QuantoMultiplier`,
  `Trigger.Price`) are modelled by the outcome of the parse:
  `Option ℚ` (`none` = empty or unparseable) resp. `TriggerPriceField`.
-/

set_option autoImplicit false

namespace Nofx

/-- The Gate.io symbol separator character (`"_"` in the Go source). -/
def sep : Char := '_'

/-- The quote-currency suffix list tried in order by
`normalizeSymbolForGateIO` (`suffixes` in the Go source). -/
def gateSuffixes : List (List Char) :=
  ["USDT", "USDC", "BUSD", "TUSD", "DAI", "USD"].map String.toList

/-- `normalizeSymbolForGateIO`: Binance-style `BTCUSDT` → Gate.io-style
`BTC_USDT`.  Already-separated symbols are returned unchanged; otherwise the
first matching known suffix is split off; otherwise, for symbols longer than
4 characters, the separator is inserted 4 characters from the end; otherwise
the symbol is returned unchanged. -/
def normalizeSymbolForGateIo (symbol : List Char) : List Char :=
  if sep ∈ symbol then symbol
  else
    match gateSuffixes.find? (fun suffix => suffix.isSuffixOf symbol) with
    | some suffix =>
        symbol.take (symbol.length - suffix.length) ++ sep :: suffix
    | none =>
        if 4 < symbol.length then
          symbol.take (symbol.length - 4) ++ sep :: symbol.drop (symbol.length - 4)
        else symbol

/-- `DenormalizeSymbolFromGateIO`: removes every separator character
(`strings.ReplaceAll(symbol, "_", "")`; the separator is a single
character, so replacement by the empty string is a filter). -/
def DenormalizeSymbolFromGateIo (symbol : List Char) : List Char :=
  symbol.filter (fun c => c ≠ sep)

/-- Spec-worded transformation, for comparison with the source in claim C7:
"the separator is inserted 4 characters from the end". -/
def insertSepFourFromEnd_spec (symbol : List Char) : List Char :=
  symbol.take (symbol.length - 4) ++ sep :: symbol.drop (symbol.length - 4)

/-- Rounding to `prec` decimal digits, the model of
`fmt.Sprintf("%.{prec}f", q)` followed by `strconv.ParseFloat`. -/
def fround (prec : ℕ) (q : ℚ) : ℚ :=
  (round (q * 10 ^ prec) : ℤ) / 10 ^ prec

/-- Go's `int64(x)` conversion from `float64`: truncation toward zero. -/
def int64Trunc (q : ℚ) : ℤ :=
  if 0 ≤ q then ⌊q⌋ else ⌈q⌉

/-- Precision derivation from `OrderPriceRound` in `FormatQuantity`
(lines 334–343): default 3; if the string contains `'.'` and splits into
exactly two parts, the length of the fractional part.  The split on the
one-character separator `"."` is taken on the character list. -/
def precisionOf (orderPriceRound : String) : ℕ :=
  if orderPriceRound ≠ "" ∧ '.' ∈ orderPriceRound.toList then
    match List.splitOn '.' orderPriceRound.toList with
    | [_, frac] => frac.length
    | _ => 3
  else 3

/-- The fields of `gateapi.Contract` the adapter reads.
`quantoMultiplier` is the outcome of parsing the `QuantoMultiplier` string
(`none` = empty or unparseable; a parsed value may still be non-positive). -/
structure Contract where
  quantoMultiplier : Option ℚ
  orderSizeMin : ℤ
  orderPriceRound : String
  deriving Repr, DecidableEq

/-- The multiplier actually used: parsed value if positive, else the
default `1.0` (lines 298–308 and the copies at 353–360, 386–392). -/
def quantoMultiplierOf (info : Contract) : ℚ :=
  match info.quantoMultiplier with
  | some parsed => if 0 < parsed then parsed else 1
  | none => 1

/-- `convertCoinQuantityToContractSize` (line 311):
`contractSize = coinQuantity / quantoMultiplier`.  The symbol-info lookup is
supplied by the environment, so the fallible lookup is factored out. -/
def convertCoinQuantityToContractSize (info : Contract) (coinQuantity : ℚ) : ℚ :=
  coinQuantity / quantoMultiplierOf info

/-- One entry of the cached positions list (the typed content of the
`map[string]interface{}` produced by `GetPositions`). -/
structure PositionRec where
  symbol : String
  side : String
  positionAmt : ℚ
  deriving Repr, DecidableEq

/-- Environment: the data the upstream exchange client and the caches would
supply for the one symbol an operation works on. -/
structure TraderEnv where
  /-- Result of `getSymbolInfo` (`none` = lookup failed). -/
  symbolSpec : Option Contract
  /-- Result of `GetMarketPrice` (`none` = fetch failed). -/
  marketPrice : Option ℚ
  /-- Cached positions as produced by `GetPositions`. -/
  positions : List PositionRec

/-- Failure modes of `FormatQuantity`, with the numeric data the error
message reports. -/
inductive FmtError where
  /-- "订单数量 … 小于最小要求 …" (line 368). -/
  | belowMinimumSize (quantity contractSize minContractSize : ℚ) : FmtError
  /-- "数量 … 格式化后为 0 …" (line 400). -/
  | zeroAfterRounding (quantity contractSize : ℚ) (precision : ℕ) : FmtError
  deriving Repr, DecidableEq

/-- A fixed-precision decimal string, represented by its value and its
number of fractional digits. -/
structure FmtResult where
  value : ℚ
  precision : ℕ
  deriving Repr, DecidableEq

/-- `FormatQuantity` (lines 319–405): coin quantity → formatted contract
size.  No spec: fall back to 3-decimal formatting of the raw coin quantity.
Otherwise convert, enforce the minimum contract size when positive, round
to the derived precision, and reject a non-positive rounded value. -/
def FormatQuantity (env : TraderEnv) (quantity : ℚ) : Except FmtError FmtResult :=
  match env.symbolSpec with
  | none => .ok ⟨fround 3 quantity, 3⟩
  | some info =>
      let contractSize := convertCoinQuantityToContractSize info quantity
      let precision := precisionOf info.orderPriceRound
      if 0 < info.orderSizeMin ∧ contractSize < (info.orderSizeMin : ℚ) then
        .error (.belowMinimumSize quantity contractSize (info.orderSizeMin : ℚ))
      else
        let formatted := fround precision contractSize
        if formatted ≤ 0 then
          .error (.zeroAfterRounding quantity contractSize precision)
        else .ok ⟨formatted, precision⟩

/-- Failure modes of the order-placing operations. -/
inductive TradeError where
  /-- `FormatQuantity` failure propagated unchanged. -/
  | fmtError (e : FmtError) : TradeError
  /-- `GetMarketPrice` failure inside `CheckMinNotional`. -/
  | priceUnavailable : TradeError
  /-- "订单金额 … 低于最小要求 …" (line 1152). -/
  | belowMinNotional : TradeError
  /-- "没有找到 … 的多仓/空仓" (lines 654, 741). -/
  | noOpenPosition : TradeError
  /-- `SetLeverage` rejection of a non-positive leverage (line 441). -/
  | invalidLeverage : TradeError
  deriving Repr, DecidableEq

/-- The minimum notional value `GetMinNotional` returns (line 1136). -/
def GetMinNotional : ℚ := 10

/-- `CheckMinNotional` (lines 1141–1159): notional = quantity × price,
compared against the minimum. -/
def CheckMinNotional (env : TraderEnv) (quantity : ℚ) : Except TradeError Unit :=
  match env.marketPrice with
  | none => .error .priceUnavailable
  | some price =>
      if quantity * price < GetMinNotional then .error .belowMinNotional
      else .ok ()

/-- The `gateapi.FuturesOrder` payload as constructed before transport
(the fields the adapter sets). -/
structure FuturesOrder where
  contract : List Char
  size : ℤ
  price : String
  reduceOnly : Bool
  tif : String
  text : String
  deriving Repr, DecidableEq

/-- `OpenLong` (lines 509–567): cancel-all (best effort, no payload
effect), set leverage, format quantity, parse it back, check the minimum
notional, then submit a non-reduce-only IOC market order with positive
(truncated) contract size. -/
def OpenLong (env : TraderEnv) (symbol : String) (quantity : ℚ) (leverage : ℤ) :
    Except TradeError FuturesOrder :=
  if leverage ≤ 0 then .error .invalidLeverage
  else
    match FormatQuantity env quantity with
    | .error e => .error (.fmtError e)
    | .ok fr =>
        match CheckMinNotional env quantity with
        | .error e => .error e
        | .ok _ =>
            .ok { contract := normalizeSymbolForGateIo symbol.toList
                  size := int64Trunc fr.value
                  price := "0"
                  reduceOnly := false
                  tif := "ioc"
                  text := "t-gateio-futures" }

/-- `OpenShort` (lines 570–627): as `OpenLong` with the contract size
negated before the `int64` conversion. -/
def OpenShort (env : TraderEnv) (symbol : String) (quantity : ℚ) (leverage : ℤ) :
    Except TradeError FuturesOrder :=
  if leverage ≤ 0 then .error .invalidLeverage
  else
    match FormatQuantity env quantity with
    | .error e => .error (.fmtError e)
    | .ok fr =>
        match CheckMinNotional env quantity with
        | .error e => .error e
        | .ok _ =>
            .ok { contract := normalizeSymbolForGateIo symbol.toList
                  size := int64Trunc (-fr.value)
                  price := "0"
                  reduceOnly := false
                  tif := "ioc"
                  text := "t-gateio-futures" }

/-- The quantity `CloseLong` actually closes (lines 632–656): a zero
argument is replaced by the `positionAmt` of the first cached long
position for the symbol (remaining `0` when there is none). -/
def closeLongQuantity (env : TraderEnv) (symbol : String) (quantity : ℚ) : ℚ :=
  if quantity = 0 then
    match env.positions.find? (fun p => p.symbol == symbol && p.side == "long") with
    | some p => p.positionAmt
    | none => 0
  else quantity

/-- The quantity `CloseShort` actually closes (lines 719–743). -/
def closeShortQuantity (env : TraderEnv) (symbol : String) (quantity : ℚ) : ℚ :=
  if quantity = 0 then
    match env.positions.find? (fun p => p.symbol == symbol && p.side == "short") with
    | some p => p.positionAmt
    | none => 0
  else quantity

/-- `CloseLong` (lines 630–714): resolve a zero quantity from the cached
positions (error when still zero), format, then submit a reduce-only IOC
market order with negative (truncated) contract size. -/
def CloseLong (env : TraderEnv) (symbol : String) (quantity : ℚ) :
    Except TradeError FuturesOrder :=
  if closeLongQuantity env symbol quantity = 0 then .error .noOpenPosition
  else
    match FormatQuantity env (closeLongQuantity env symbol quantity) with
    | .error e => .error (.fmtError e)
    | .ok fr =>
        .ok { contract := normalizeSymbolForGateIo symbol.toList
              size := -(if int64Trunc fr.value < 0 then -(int64Trunc fr.value)
                        else int64Trunc fr.value)
              price := "0"
              reduceOnly := true
              tif := "ioc"
              text := "t-gateio-futures-close" }

/-- `CloseShort` (lines 717–801): as `CloseLong` with the short side and a
positive submitted size. -/
def CloseShort (env : TraderEnv) (symbol : String) (quantity : ℚ) :
    Except TradeError FuturesOrder :=
  if closeShortQuantity env symbol quantity = 0 then .error .noOpenPosition
  else
    match FormatQuantity env (closeShortQuantity env symbol quantity) with
    | .error e => .error (.fmtError e)
    | .ok fr =>
        .ok { contract := normalizeSymbolForGateIo symbol.toList
              size := (if int64Trunc fr.value < 0 then -(int64Trunc fr.value)
                       else int64Trunc fr.value)
              price := "0"
              reduceOnly := true
              tif := "ioc"
              text := "t-gateio-futures-close" }

/-- The `gateapi.FuturesInitialOrder` part of a price-triggered order
(prices kept as rationals; the Go code renders them with `%.8f`). -/
structure FuturesInitialOrder where
  contract : List Char
  size : ℤ
  price : ℚ
  tif : String
  deriving Repr, DecidableEq

/-- The `gateapi.FuturesPriceTrigger` part of a price-triggered order. -/
structure FuturesPriceTrigger where
  strategyType : ℤ
  priceType : ℤ
  price : ℚ
  deriving Repr, DecidableEq

/-- The `gateapi.FuturesPriceTriggeredOrder` payload. -/
structure FuturesPriceTriggeredOrder where
  initial : FuturesInitialOrder
  trigger : FuturesPriceTrigger
  deriving Repr, DecidableEq

/-- `SetStopLoss` (lines 1054–1092): format the quantity, negate it for a
`LONG` position, truncate to `int64`, and submit a conditional order whose
initial order and trigger share `stopPrice`. -/
def SetStopLoss (env : TraderEnv) (symbol : String) (positionSide : String)
    (quantity stopPrice : ℚ) : Except TradeError FuturesPriceTriggeredOrder :=
  match FormatQuantity env quantity with
  | .error e => .error (.fmtError e)
  | .ok fr =>
      .ok { initial := { contract := normalizeSymbolForGateIo symbol.toList
                         size := int64Trunc
                           (if positionSide == "LONG" then -fr.value else fr.value)
                         price := stopPrice
                         tif := "gtc" }
            trigger := { strategyType := 0, priceType := 0, price := stopPrice } }

/-- `SetTakeProfit` (lines 1095–1131): identical construction with the
take-profit price. -/
def SetTakeProfit (env : TraderEnv) (symbol : String) (positionSide : String)
    (quantity takeProfitPrice : ℚ) : Except TradeError FuturesPriceTriggeredOrder :=
  match FormatQuantity env quantity with
  | .error e => .error (.fmtError e)
  | .ok fr =>
      .ok { initial := { contract := normalizeSymbolForGateIo symbol.toList
                         size := int64Trunc
                           (if positionSide == "LONG" then -fr.value else fr.value)
                         price := takeProfitPrice
                         tif := "gtc" }
            trigger := { strategyType := 0, priceType := 0
                         price := takeProfitPrice } }

/-- The balance snapshot `GetBalance` caches (the three parsed fields of
the `map[string]interface{}` it builds, lines 154–157). -/
structure Balance where
  totalWalletBalance : ℚ
  availableBalance : ℚ
  totalUnrealizedProfit : ℚ
  deriving Repr, DecidableEq

/-- The balance part of the trader's cache state: `cachedBalance`
(`nil`-able) and `balanceCacheTime`.  Time is an integer count of seconds
(the unit in which `cacheDuration` is expressed). -/
structure BalanceCache where
  cachedBalance : Option Balance
  balanceCacheTime : ℤ
  deriving Repr, DecidableEq

/-- `cacheDuration`: 15 seconds (line 74). -/
def cacheDuration : ℤ := 15

/-- `GetBalance` (lines 129–168) as a state transformer.  `now` is the
current time, `fetch` the outcome the upstream `ListFuturesAccounts` call
would produce (`none` = transport failure).  Returns the reported balance
(`none` on failure), the new cache state, and whether an upstream fetch
was performed. -/
def GetBalance (now : ℤ) (fetch : Option Balance) (s : BalanceCache) :
    Option Balance × BalanceCache × Bool :=
  match s.cachedBalance with
  | some b =>
      if now - s.balanceCacheTime < cacheDuration then (some b, s, false)
      else
        match fetch with
        | none => (none, s, true)
        | some result => (some result, ⟨some result, now⟩, true)
  | none =>
      match fetch with
      | none => (none, s, true)
      | some result => (some result, ⟨some result, now⟩, true)

/-- The `Trigger.Price` string of a price-triggered order, by the outcome
of `strconv.ParseFloat`: empty, non-empty but unparseable, or parsed. -/
inductive TriggerPriceField where
  | empty : TriggerPriceField
  | unparseable : TriggerPriceField
  | price (p : ℚ) : TriggerPriceField
  deriving Repr, DecidableEq

/-- The fields of an open price-triggered order that
`CancelStopLossOrders` / `CancelTakeProfitOrders` read. -/
structure OpenTriggerOrder where
  id : ℤ
  initialSize : ℤ
  triggerPrice : TriggerPriceField
  deriving Repr, DecidableEq

/-- The stop-loss classification of one order inside
`CancelStopLossOrders` (lines 889–913): price comparison when the trigger
price parses and the current price is positive, signed-size fallback
otherwise, `false` when the trigger price string is empty. -/
def isStopLossOf (positionSide : String) (currentPrice : ℚ)
    (order : OpenTriggerOrder) : Bool :=
  match order.triggerPrice with
  | .empty => false
  | .price triggerPrice =>
      if 0 < currentPrice then
        if positionSide == "long" then decide (triggerPrice < currentPrice)
        else if positionSide == "short" then decide (currentPrice < triggerPrice)
        else false
      else
        if positionSide == "long" && order.initialSize < 0 then true
        else if positionSide == "short" && 0 < order.initialSize then true
        else false
  | .unparseable =>
      if positionSide == "long" && order.initialSize < 0 then true
      else if positionSide == "short" && 0 < order.initialSize then true
      else false

/-- The take-profit classification of one order inside
`CancelTakeProfitOrders` (lines 987–1011): price comparisons inverted
relative to `isStopLossOf`, identical signed-size fallback. -/
def isTakeProfitOf (positionSide : String) (currentPrice : ℚ)
    (order : OpenTriggerOrder) : Bool :=
  match order.triggerPrice with
  | .empty => false
  | .price triggerPrice =>
      if 0 < currentPrice then
        if positionSide == "long" then decide (currentPrice < triggerPrice)
        else if positionSide == "short" then decide (triggerPrice < currentPrice)
        else false
      else
        if positionSide == "long" && order.initialSize < 0 then true
        else if positionSide == "short" && 0 < order.initialSize then true
        else false
  | .unparseable =>
      if positionSide == "long" && order.initialSize < 0 then true
      else if positionSide == "short" && 0 < order.initialSize then true
      else false

/-- The per-order cancellation decision of `CancelStopLossOrders`
(lines 915–931): skip when the position side is unknown or the current
price is zero, otherwise cancel the orders classified as stop-loss that
have a positive id. -/
def cancelsAsStopLoss (positionSide : String) (currentPrice : ℚ)
    (order : OpenTriggerOrder) : Bool :=
  if positionSide == "" || currentPrice == 0 then false
  else isStopLossOf positionSide currentPrice order && decide (0 < order.id)

/-- The per-order cancellation decision of `CancelTakeProfitOrders`
(lines 1013–1029). -/
def cancelsAsTakeProfit (positionSide : String) (currentPrice : ℚ)
    (order : OpenTriggerOrder) : Bool :=
  if positionSide == "" || currentPrice == 0 then false
  else isTakeProfitOf positionSide currentPrice order && decide (0 < order.id)

/-- The binary "is this a protective (closing) order" test: the order's
signed size opposes the position side.  This is the common content of the
signed-size fallback branches of `isStopLossOf` and `isTakeProfitOf`. -/
def protectiveBySize (positionSide : String) (size : ℤ) : Bool :=
  if positionSide == "long" && size < 0 then true
  else if positionSide == "short" && 0 < size then true
  else false

/-! ### Concrete fixtures used to instantiate the theorems -/

/-- Fixture: spec with multiplier `0.0001`, minimum contract size `1`, no
rounding increment (matching the minimum-size example of the spec). -/
def specA : Contract :=
  { quantoMultiplier := some (1/10000), orderSizeMin := 1, orderPriceRound := "" }

/-- Fixture environment around `specA`, market price 100, no positions. -/
def envA : TraderEnv :=
  { symbolSpec := some specA, marketPrice := some 100, positions := [] }

/-- Fixture: spec with multiplier `1`, no minimum contract size, rounding
increment `"0.01"` (matching the precision-floor example of the spec). -/
def specB : Contract :=
  { quantoMultiplier := some 1, orderSizeMin := 0, orderPriceRound := "0.01" }

/-- Fixture environment around `specB`. -/
def envB : TraderEnv :=
  { symbolSpec := some specB, marketPrice := some 100, positions := [] }

/-- Fixture: spec with multiplier `1`, no minimum contract size, rounding
increment `"0.001"` (three-digit precision). -/
def specC : Contract :=
  { quantoMultiplier := some 1, orderSizeMin := 0, orderPriceRound := "0.001" }

/-- Fixture environment around `specC`. -/
def envC : TraderEnv :=
  { symbolSpec := some specC, marketPrice := some 100, positions := [] }

/-- Fixture environment with no resolvable symbol spec. -/
def envN : TraderEnv :=
  { symbolSpec := none, marketPrice := none, positions := [] }

/-- Fixture environment around `specA` with one cached long position of
`0.002` coin for `BTCUSDT`. -/
def envD : TraderEnv :=
  { symbolSpec := some specA, marketPrice := some 100
    positions := [⟨"BTCUSDT", "long", 2/1000⟩] }

/-- Fixture: the order payload `OpenLong` constructs on `envC` for a coin
quantity of `0.5` (half a contract, truncated to size 0). -/
def orderC : FuturesOrder :=
  ⟨"BTC_USDT".toList, 0, "0", false, "ioc", "t-gateio-futures"⟩

/-- Fixture: the conditional-order payload `SetStopLoss` constructs on
`envC` for a `LONG` position, coin quantity `2.5` and stop price 90. -/
def stopOrderC : FuturesPriceTriggeredOrder :=
  ⟨⟨"BTC_USDT".toList, -2, 90, "gtc"⟩, ⟨0, 0, 90⟩⟩

/-- Fixture: the order payload `OpenLong` constructs on `envC` for a coin
quantity of `2.5` (two and a half contracts, truncated to size 2). -/
def order2 : FuturesOrder :=
  ⟨"BTC_USDT".toList, 2, "0", false, "ioc", "t-gateio-futures"⟩

/-- Fixture: the order payload `CloseLong` constructs on `envD` when asked
to close the whole long position of `0.002` coin (20 contracts at
multiplier `0.0001`). -/
def closeOrderD : FuturesOrder :=
  ⟨"BTC_USDT".toList, -20, "0", true, "ioc", "t-gateio-futures-close"⟩

instance {ε α : Type} [DecidableEq ε] [DecidableEq α] : DecidableEq (Except ε α) :=
  fun x y =>
    match x, y with
    | .ok a, .ok b =>
        if h : a = b then .isTrue (by rw [h])
        else .isFalse (fun hc => h (Except.ok.inj hc))
    | .error a, .error b =>
        if h : a = b then .isTrue (by rw [h])
        else .isFalse (fun hc => h (Except.error.inj hc))
    | .ok _, .error _ => .isFalse (fun hc => Except.noConfusion hc)
    | .error _, .ok _ => .isFalse (fun hc => Except.noConfusion hc)

/-! ## Helper lemmas -/

/-- Filtering out the separator is the identity on separator-free lists. -/
theorem filter_ne_sep_of_not_mem {l : List Char} (hl : sep ∉ l) :
    l.filter (fun c => c ≠ sep) = l := by
  refine List.filter_eq_self.mpr (fun a ha => ?_)
  have : a ≠ sep := fun hs => hl (hs ▸ ha)
  simpa using this

/-- `DenormalizeSymbolFromGateIo` on `A ++ sep :: B` with separator-free
`A` and `B` yields `A ++ B`. -/
theorem denorm_append_sep {A B : List Char} (hA : sep ∉ A) (hB : sep ∉ B) :
    DenormalizeSymbolFromGateIo (A ++ sep :: B) = A ++ B := by
  unfold DenormalizeSymbolFromGateIo
  rw [List.filter_append, List.filter_cons, if_neg (by simp)]
  rw [filter_ne_sep_of_not_mem hA, filter_ne_sep_of_not_mem hB]

/-- Truncation toward zero is nonnegative on nonnegative inputs. -/
theorem int64Trunc_nonneg {q : ℚ} (h : 0 ≤ q) : 0 ≤ int64Trunc q := by
  unfold int64Trunc
  rw [if_pos h]
  exact Int.floor_nonneg.mpr h

/-- Truncation toward zero keeps values at least one at least one. -/
theorem one_le_int64Trunc {q : ℚ} (h : 1 ≤ q) : 1 ≤ int64Trunc q := by
  unfold int64Trunc
  rw [if_pos (le_trans zero_le_one h)]
  exact Int.le_floor.mpr (by exact_mod_cast h)

/-- Truncation toward zero is an odd function. -/
theorem int64Trunc_neg (q : ℚ) : int64Trunc (-q) = -int64Trunc q := by
  unfold int64Trunc
  rcases lt_trichotomy q 0 with hq | hq | hq
  · rw [if_pos (by linarith), if_neg (not_le.mpr hq), Int.floor_neg]
  · subst hq; simp
  · rw [if_neg (by simpa using hq), if_pos (le_of_lt hq), Int.ceil_neg]

/-- The branch collapsing `if t < 0 then -t else t` of the close
operations is the absolute value. -/
theorem if_neg_abs (t : ℤ) : (if t < 0 then -t else t) = |t| := by
  rcases lt_or_le t 0 with h | h
  · rw [if_pos h, abs_of_neg h]
  · rw [if_neg (not_lt.mpr h), abs_of_nonneg h]

/-- Rounding to a fixed precision preserves nonnegativity. -/
theorem fround_nonneg {q : ℚ} (prec : ℕ) (h : 0 ≤ q) : 0 ≤ fround prec q := by
  unfold fround
  have hr : (0 : ℤ) ≤ round (q * 10 ^ prec) := by
    rw [round_eq]
    exact Int.floor_nonneg.mpr (by positivity)
  positivity

/-- Unfolding of `GetBalance` when the cache holds a value. -/
theorem getBalance_some {s : BalanceCache} {b : Balance}
    (hb : s.cachedBalance = some b) (now : ℤ) (fetch : Option Balance) :
    GetBalance now fetch s =
      if now - s.balanceCacheTime < cacheDuration then (some b, s, false)
      else
        match fetch with
        | none => (none, s, true)
        | some result => (some result, ⟨some result, now⟩, true) := by
  unfold GetBalance
  rw [hb]

/-- Unfolding of `GetBalance` when the cache is empty. -/
theorem getBalance_none {s : BalanceCache} (hb : s.cachedBalance = none)
    (now : ℤ) (fetch : Option Balance) :
    GetBalance now fetch s =
      match fetch with
      | none => (none, s, true)
      | some result => (some result, ⟨some result, now⟩, true) := by
  unfold GetBalance
  rw [hb]

/-- Unfolding of `FormatQuantity` when the spec lookup fails. -/
theorem formatQuantity_none {env : TraderEnv} (q : ℚ)
    (hinfo : env.symbolSpec = none) :
    FormatQuantity env q = .ok ⟨fround 3 q, 3⟩ := by
  unfold FormatQuantity
  rw [hinfo]

/-- Unfolding of `FormatQuantity` when the spec lookup succeeds. -/
theorem formatQuantity_some {env : TraderEnv} {info : Contract} (q : ℚ)
    (hinfo : env.symbolSpec = some info) :
    FormatQuantity env q =
      if 0 < info.orderSizeMin ∧
          convertCoinQuantityToContractSize info q < (info.orderSizeMin : ℚ) then
        .error (.belowMinimumSize q (convertCoinQuantityToContractSize info q)
          (info.orderSizeMin : ℚ))
      else if fround (precisionOf info.orderPriceRound)
          (convertCoinQuantityToContractSize info q) ≤ 0 then
        .error (.zeroAfterRounding q (convertCoinQuantityToContractSize info q)
          (precisionOf info.orderPriceRound))
      else
        .ok ⟨fround (precisionOf info.orderPriceRound)
              (convertCoinQuantityToContractSize info q),
          precisionOf info.orderPriceRound⟩ := by
  unfold FormatQuantity
  rw [hinfo]

/-- A successful `FormatQuantity` with a resolvable spec returns a
positive value (it has passed the zero-after-rounding check). -/
theorem formatOk_pos {env : TraderEnv} {info : Contract} {q : ℚ} {fr : FmtResult}
    (hinfo : env.symbolSpec = some info)
    (h : FormatQuantity env q = .ok fr) : 0 < fr.value := by
  rw [formatQuantity_some q hinfo] at h
  split at h
  · exact absurd h (by simp)
  · split at h
    · exact absurd h (by simp)
    · rename_i hz
      cases h
      exact lt_of_not_le hz

/-- A successful `FormatQuantity` on a nonnegative coin quantity returns
a nonnegative value (positive under a resolvable spec, a nonnegative
3-decimal rounding otherwise). -/
theorem formatOk_nonneg {env : TraderEnv} {q : ℚ} {fr : FmtResult}
    (hq : 0 ≤ q) (h : FormatQuantity env q = .ok fr) : 0 ≤ fr.value := by
  cases hinfo : env.symbolSpec with
  | some info => exact le_of_lt (formatOk_pos hinfo h)
  | none =>
      rw [formatQuantity_none q hinfo] at h
      cases h
      exact fround_nonneg 3 hq

/-- A successful `OpenLong` comes from a successful format and
minimum-notional check, and its payload is the IOC market order with the
truncated contract size. -/
theorem openLong_ok {env : TraderEnv} {symbol : String} {q : ℚ} {lev : ℤ}
    {o : FuturesOrder} (h : OpenLong env symbol q lev = .ok o) :
    ∃ fr, FormatQuantity env q = .ok fr ∧
      o = ⟨normalizeSymbolForGateIo symbol.toList, int64Trunc fr.value, "0",
        false, "ioc", "t-gateio-futures"⟩ := by
  unfold OpenLong at h
  split at h
  · exact absurd h (by simp)
  · split at h
    · exact absurd h (by simp)
    · rename_i fr hfq
      split at h
      · exact absurd h (by simp)
      · injection h with h
        exact ⟨fr, hfq, h.symm⟩

/-- A successful `OpenShort` analogue of `openLong_ok`. -/
theorem openShort_ok {env : TraderEnv} {symbol : String} {q : ℚ} {lev : ℤ}
    {o : FuturesOrder} (h : OpenShort env symbol q lev = .ok o) :
    ∃ fr, FormatQuantity env q = .ok fr ∧
      o = ⟨normalizeSymbolForGateIo symbol.toList, int64Trunc (-fr.value), "0",
        false, "ioc", "t-gateio-futures"⟩ := by
  unfold OpenShort at h
  split at h
  · exact absurd h (by simp)
  · split at h
    · exact absurd h (by simp)
    · rename_i fr hfq
      split at h
      · exact absurd h (by simp)
      · injection h with h
        exact ⟨fr, hfq, h.symm⟩

/-- A successful `CloseLong` comes from a nonzero resolved quantity and a
successful format of it, and its payload is the reduce-only IOC order of
minus the absolute truncated contract size. -/
theorem closeLong_ok {env : TraderEnv} {symbol : String} {q : ℚ}
    {o : FuturesOrder} (h : CloseLong env symbol q = .ok o) :
    ∃ fr, closeLongQuantity env symbol q ≠ 0 ∧
      FormatQuantity env (closeLongQuantity env symbol q) = .ok fr ∧
      o = ⟨normalizeSymbolForGateIo symbol.toList, -|int64Trunc fr.value|, "0",
        true, "ioc", "t-gateio-futures-close"⟩ := by
  unfold CloseLong at h
  split at h
  · exact absurd h (by simp)
  · rename_i hq0
    split at h
    · exact absurd h (by simp)
    · rename_i fr hfq
      injection h with h
      refine ⟨fr, hq0, hfq, ?_⟩
      rw [← h, if_neg_abs]

/-- A successful `CloseShort` analogue of `closeLong_ok`. -/
theorem closeShort_ok {env : TraderEnv} {symbol : String} {q : ℚ}
    {o : FuturesOrder} (h : CloseShort env symbol q = .ok o) :
    ∃ fr, closeShortQuantity env symbol q ≠ 0 ∧
      FormatQuantity env (closeShortQuantity env symbol q) = .ok fr ∧
      o = ⟨normalizeSymbolForGateIo symbol.toList, |int64Trunc fr.value|, "0",
        true, "ioc", "t-gateio-futures-close"⟩ := by
  unfold CloseShort at h
  split at h
  · exact absurd h (by simp)
  · rename_i hq0
    split at h
    · exact absurd h (by simp)
    · rename_i fr hfq
      injection h with h
      refine ⟨fr, hq0, hfq, ?_⟩
      rw [← h, if_neg_abs]

/-- A successful `SetStopLoss` comes from a successful format, and its
payload carries the sign-adjusted truncated contract size with equal
initial and trigger prices. -/
theorem setStopLoss_ok {env : TraderEnv} {symbol positionSide : String}
    {q sp : ℚ} {po : FuturesPriceTriggeredOrder}
    (h : SetStopLoss env symbol positionSide q sp = .ok po) :
    ∃ fr, FormatQuantity env q = .ok fr ∧
      po = ⟨⟨normalizeSymbolForGateIo symbol.toList,
        int64Trunc (if positionSide == "LONG" then -fr.value else fr.value),
        sp, "gtc"⟩, ⟨0, 0, sp⟩⟩ := by
  unfold SetStopLoss at h
  split at h
  · exact absurd h (by simp)
  · rename_i fr hfq
    injection h with h
    exact ⟨fr, hfq, h.symm⟩

/-- A successful `SetTakeProfit` analogue of `setStopLoss_ok`. -/
theorem setTakeProfit_ok {env : TraderEnv} {symbol positionSide : String}
    {q tp : ℚ} {po : FuturesPriceTriggeredOrder}
    (h : SetTakeProfit env symbol positionSide q tp = .ok po) :
    ∃ fr, FormatQuantity env q = .ok fr ∧
      po = ⟨⟨normalizeSymbolForGateIo symbol.toList,
        int64Trunc (if positionSide == "LONG" then -fr.value else fr.value),
        tp, "gtc"⟩, ⟨0, 0, tp⟩⟩ := by
  unfold SetTakeProfit at h
  split at h
  · exact absurd h (by simp)
  · rename_i fr hfq
    injection h with h
    exact ⟨fr, hfq, h.symm⟩

/-- Forward evaluation of `OpenLong` from its three gates. -/
theorem openLong_eval {env : TraderEnv} {symbol : String} {q : ℚ} {lev : ℤ}
    {fr : FmtResult} (hlev : ¬ lev ≤ 0) (hfq : FormatQuantity env q = .ok fr)
    (hcm : CheckMinNotional env q = .ok ()) :
    OpenLong env symbol q lev =
      .ok ⟨normalizeSymbolForGateIo symbol.toList, int64Trunc fr.value, "0",
        false, "ioc", "t-gateio-futures"⟩ := by
  unfold OpenLong
  rw [if_neg hlev, hfq, hcm]

/-- Forward evaluation of `CloseLong` from its two gates. -/
theorem closeLong_eval {env : TraderEnv} {symbol : String} {q : ℚ}
    {fr : FmtResult} (hne : closeLongQuantity env symbol q ≠ 0)
    (hfq : FormatQuantity env (closeLongQuantity env symbol q) = .ok fr) :
    CloseLong env symbol q =
      .ok ⟨normalizeSymbolForGateIo symbol.toList, -|int64Trunc fr.value|, "0",
        true, "ioc", "t-gateio-futures-close"⟩ := by
  unfold CloseLong
  rw [if_neg hne, hfq]
  simp only [if_neg_abs]

/-- Forward evaluation of `CloseShort` from its two gates. -/
theorem closeShort_eval {env : TraderEnv} {symbol : String} {q : ℚ}
    {fr : FmtResult} (hne : closeShortQuantity env symbol q ≠ 0)
    (hfq : FormatQuantity env (closeShortQuantity env symbol q) = .ok fr) :
    CloseShort env symbol q =
      .ok ⟨normalizeSymbolForGateIo symbol.toList, |int64Trunc fr.value|, "0",
        true, "ioc", "t-gateio-futures-close"⟩ := by
  unfold CloseShort
  rw [if_neg hne, hfq]
  simp only [if_neg_abs]

/-! ## Claim theorems -/

/-- C6: for every canonical symbol (a character list not containing the
separator `'_'`), denormalizing the normalized symbol gives back the
original symbol. -/
theorem symbol_round_trip (s : List Char) (h : sep ∉ s) :
    DenormalizeSymbolFromGateIo (normalizeSymbolForGateIo s) = s := by
  unfold normalizeSymbolForGateIo
  rw [if_neg h]
  cases hfind : gateSuffixes.find? (fun suffix => suffix.isSuffixOf s) with
  | some suffix =>
      have hsuf : suffix <:+ s :=
        List.isSuffixOf_iff_suffix.mp
          (List.find?_some (p := fun t : List Char => t.isSuffixOf s) hfind)
      have heq : s.take (s.length - suffix.length) ++ suffix = s :=
        List.suffix_iff_eq_append.mp hsuf
      have htake : sep ∉ s.take (s.length - suffix.length) :=
        fun hm => h (List.take_subset _ _ hm)
      have hsuff : sep ∉ suffix := fun hm => h (hsuf.subset hm)
      simpa only [denorm_append_sep htake hsuff] using heq
  | none =>
      by_cases hlen : 4 < s.length
      · rw [if_pos hlen]
        have htake : sep ∉ s.take (s.length - 4) :=
          fun hm => h (List.take_subset _ _ hm)
        have hdrop : sep ∉ s.drop (s.length - 4) :=
          fun hm => h (List.drop_subset _ _ hm)
        rw [denorm_append_sep htake hdrop, List.take_append_drop]
      · rw [if_neg hlen]
        exact filter_ne_sep_of_not_mem h

/-- C6 witness: the round trip at the concrete symbol `BTCUSDT`. -/
theorem symbol_round_trip_witness :
    sep ∉ "BTCUSDT".toList ∧
      DenormalizeSymbolFromGateIo (normalizeSymbolForGateIo "BTCUSDT".toList)
        = "BTCUSDT".toList :=
  ⟨by decide, symbol_round_trip _ (by decide)⟩

/-- C7 counterexample: `"ABCD"` contains no separator and ends in no known
quote-currency suffix, yet `normalizeSymbolForGateIo` returns it unchanged
rather than with the separator inserted 4 characters from the end. -/
theorem fallback_insert_counterexample :
    sep ∉ "ABCD".toList ∧
      (∀ suffix ∈ gateSuffixes, suffix.isSuffixOf "ABCD".toList = false) ∧
      normalizeSymbolForGateIo "ABCD".toList ≠
        insertSepFourFromEnd_spec "ABCD".toList := by decide

/-- C7 (amended): for every input symbol that does not contain the
separator, does not end in any known quote-currency suffix, and is longer
than 4 characters, `normalizeSymbolForGateIo` returns the symbol with the
separator inserted 4 characters from the end. -/
theorem fallback_insert_four_from_end (s : List Char) (h1 : sep ∉ s)
    (h2 : ∀ suffix ∈ gateSuffixes, ¬ suffix <:+ s) (h3 : 4 < s.length) :
    normalizeSymbolForGateIo s = insertSepFourFromEnd_spec s := by
  unfold normalizeSymbolForGateIo
  rw [if_neg h1]
  have hfind : gateSuffixes.find? (fun suffix => suffix.isSuffixOf s) = none := by
    refine List.find?_eq_none.mpr (fun x hx hmem => ?_)
    exact h2 x hx (List.isSuffixOf_iff_suffix.mp hmem)
  rw [hfind, if_pos h3]
  rfl

/-- C8: a `GetBalance` call finding a non-`nil` cached balance younger
than the 15-second TTL returns it without an upstream fetch and leaves the
cache unchanged; with the cache absent or at least TTL old it fetches and
stores the (successful) result under the new timestamp. -/
theorem balance_cache_ttl (now : ℤ) (result : Balance) (s : BalanceCache) :
    (∀ b, s.cachedBalance = some b → now - s.balanceCacheTime < cacheDuration →
      GetBalance now (some result) s = (some b, s, false)) ∧
    (s.cachedBalance = none ∨ cacheDuration ≤ now - s.balanceCacheTime →
      GetBalance now (some result) s = (some result, ⟨some result, now⟩, true)) := by
  constructor
  · intro b hb hfresh
    rw [getBalance_some hb, if_pos hfresh]
  · intro hstale
    cases hb : s.cachedBalance with
    | none => rw [getBalance_none hb]
    | some b =>
        rcases hstale with hnone | hold
        · rw [hb] at hnone
          cases hnone
        · rw [getBalance_some hb, if_neg (not_lt.mpr hold)]

/-- C8 witness: cache captured at time 10 with TTL 15: a call at time 20
serves the cached value without fetching; a call at time 30 fetches and
restamps. -/
theorem balance_cache_ttl_witness :
    GetBalance 20 (some ⟨1, 2, 3⟩) ⟨some ⟨4, 5, 6⟩, 10⟩
        = (some ⟨4, 5, 6⟩, ⟨some ⟨4, 5, 6⟩, 10⟩, false) ∧
      GetBalance 30 (some ⟨1, 2, 3⟩) ⟨some ⟨4, 5, 6⟩, 10⟩
        = (some ⟨1, 2, 3⟩, ⟨some ⟨1, 2, 3⟩, 30⟩, true) :=
  ⟨(balance_cache_ttl 20 ⟨1, 2, 3⟩ ⟨some ⟨4, 5, 6⟩, 10⟩).1 ⟨4, 5, 6⟩ rfl (by decide),
    (balance_cache_ttl 30 ⟨1, 2, 3⟩ ⟨some ⟨4, 5, 6⟩, 10⟩).2 (Or.inr (by decide))⟩

/-- C9: when the symbol spec cannot be resolved, `FormatQuantity` returns
the raw coin quantity rounded to 3 decimal places, for every quantity and
without any error — hence without conversion, minimum-size or
zero-after-rounding checks. -/
theorem format_quantity_no_spec_fallback (env : TraderEnv) (q : ℚ)
    (h : env.symbolSpec = none) :
    FormatQuantity env q = .ok ⟨fround 3 q, 3⟩ :=
  formatQuantity_none q h

/-- C9 witness: the no-spec fallback at quantity `0.0004`, which would
round to zero — and still succeeds, with the raw quantity formatted. -/
theorem format_quantity_no_spec_fallback_witness :
    FormatQuantity envN (4/10000) = .ok ⟨fround 3 (4/10000), 3⟩ ∧
      fround 3 ((4 : ℚ)/10000) = 0 :=
  ⟨format_quantity_no_spec_fallback envN (4/10000) rfl, by norm_num [fround]⟩

/-- C4: under a resolvable spec with a positive minimum order size,
`FormatQuantity` fails with the below-minimum-size error exactly when the
converted contract size is strictly below the minimum. -/
theorem below_minimum_size_gate (env : TraderEnv) (info : Contract) (q : ℚ)
    (hinfo : env.symbolSpec = some info) (hmin : 0 < info.orderSizeMin) :
    FormatQuantity env q =
        .error (.belowMinimumSize q (convertCoinQuantityToContractSize info q)
          (info.orderSizeMin : ℚ)) ↔
      convertCoinQuantityToContractSize info q < (info.orderSizeMin : ℚ) := by
  rw [formatQuantity_some q hinfo]
  by_cases hc : convertCoinQuantityToContractSize info q < (info.orderSizeMin : ℚ)
  · rw [if_pos ⟨hmin, hc⟩]
    simp [hc]
  · rw [if_neg (fun hand => hc hand.2)]
    simp only [hc, iff_false]
    split <;> simp

/-- C4 witness: with minimum contract size 1 and multiplier `0.0001`, coin
quantity `0.00005` (half a contract) fails below-minimum-size and coin
quantity `0.0001` (one contract) succeeds. -/
theorem below_minimum_size_gate_witness :
    FormatQuantity envA (5/100000) =
        .error (.belowMinimumSize (5/100000)
          (convertCoinQuantityToContractSize specA (5/100000))
          ((specA.orderSizeMin : ℤ) : ℚ)) ∧
      FormatQuantity envA (1/10000) = .ok ⟨1, 3⟩ :=
  ⟨(below_minimum_size_gate envA specA (5/100000) rfl (by decide)).mpr
      (by norm_num [convertCoinQuantityToContractSize, quantoMultiplierOf, specA]),
    by norm_num [FormatQuantity, envA, specA, convertCoinQuantityToContractSize,
      quantoMultiplierOf, precisionOf, fround]⟩

/-- C5: under a resolvable spec (with the minimum-size gate passed),
`FormatQuantity` rounds the converted contract size to the precision
derived from the rounding increment (fractional-digit count, default 3)
and fails with the zero-after-rounding error exactly when the rounded
value is ≤ 0. -/
theorem zero_after_rounding_gate (env : TraderEnv) (info : Contract) (q : ℚ)
    (hinfo : env.symbolSpec = some info)
    (hmin : ¬(0 < info.orderSizeMin ∧
      convertCoinQuantityToContractSize info q < (info.orderSizeMin : ℚ))) :
    (FormatQuantity env q =
        .error (.zeroAfterRounding q (convertCoinQuantityToContractSize info q)
          (precisionOf info.orderPriceRound)) ↔
      fround (precisionOf info.orderPriceRound)
        (convertCoinQuantityToContractSize info q) ≤ 0) ∧
    (∀ fr, FormatQuantity env q = .ok fr →
      fr = ⟨fround (precisionOf info.orderPriceRound)
              (convertCoinQuantityToContractSize info q),
        precisionOf info.orderPriceRound⟩) := by
  rw [formatQuantity_some q hinfo, if_neg hmin]
  constructor
  · by_cases hz : fround (precisionOf info.orderPriceRound)
        (convertCoinQuantityToContractSize info q) ≤ 0
    · rw [if_pos hz]
      simp [hz]
    · rw [if_neg hz]
      simp [hz]
  · intro fr hfr
    split at hfr
    · exact absurd hfr (by simp)
    · cases hfr
      rfl

/-- C5 witness: rounding increment `"0.01"` derives precision 2, and a
contract size of `0.004` rounds to `0.00`, failing zero-after-rounding. -/
theorem zero_after_rounding_gate_witness :
    precisionOf specB.orderPriceRound = 2 ∧
      FormatQuantity envB (4/1000) =
        .error (.zeroAfterRounding (4/1000)
          (convertCoinQuantityToContractSize specB (4/1000))
          (precisionOf specB.orderPriceRound)) :=
  ⟨by decide,
    (zero_after_rounding_gate envB specB (4/1000) rfl
        (by norm_num [specB])).1.mpr
      (by
        rw [(by decide : precisionOf specB.orderPriceRound = 2)]
        norm_num [convertCoinQuantityToContractSize, quantoMultiplierOf,
          fround, round_eq, specB])⟩

/-- C1 counterexample: for a long position at price 100, an open trigger
order with positive id, unparseable trigger price and size −1 is
classified as a stop-loss by `CancelStopLossOrders` *and* as a take-profit
by `CancelTakeProfitOrders`, and is cancelled by both — it is not left
unclassified and excluded from selective cancellation. -/
theorem cancel_classifier_ambiguous_counterexample :
    cancelsAsStopLoss "long" 100 ⟨1, -1, .unparseable⟩ = true ∧
      cancelsAsTakeProfit "long" 100 ⟨1, -1, .unparseable⟩ = true := by
  constructor <;>
    simp [cancelsAsStopLoss, cancelsAsTakeProfit, isStopLossOf, isTakeProfitOf]

/-- C1 (amended): when an order's trigger price cannot be parsed, both
classifiers coincide with the binary signed-size "protective order" test
— the fallback carries no stop-loss-versus-take-profit information — and
the two cancellation decisions agree, so such orders are cancelled by
both selective cancellations rather than excluded; orders are skipped
(excluded from cancellation) exactly in the cases where the position side
is unknown or the current price is zero. -/
theorem cancel_classifier_fallback_binary (positionSide : String)
    (currentPrice : ℚ) (order : OpenTriggerOrder)
    (h : order.triggerPrice = .unparseable) :
    isStopLossOf positionSide currentPrice order
        = protectiveBySize positionSide order.initialSize ∧
      isTakeProfitOf positionSide currentPrice order
        = protectiveBySize positionSide order.initialSize ∧
      cancelsAsStopLoss positionSide currentPrice order
        = cancelsAsTakeProfit positionSide currentPrice order ∧
      (positionSide = "" ∨ currentPrice = 0 →
        cancelsAsStopLoss positionSide currentPrice order = false ∧
          cancelsAsTakeProfit positionSide currentPrice order = false) := by
  obtain ⟨oid, osize, otp⟩ := order
  cases h
  refine ⟨rfl, rfl, rfl, ?_⟩
  intro hskip
  rcases hskip with hside | hprice
  · subst hside
    constructor <;> simp [cancelsAsStopLoss, cancelsAsTakeProfit]
  · subst hprice
    constructor <;> simp [cancelsAsStopLoss, cancelsAsTakeProfit]

/-- C1 witness: the amended statement at a concrete ambiguous order held
against a long position at price 100. -/
theorem cancel_classifier_fallback_binary_witness :
    isStopLossOf "long" 100 ⟨1, -1, .unparseable⟩
        = protectiveBySize "long" (-1) ∧
      isTakeProfitOf "long" 100 ⟨1, -1, .unparseable⟩
        = protectiveBySize "long" (-1) :=
  ⟨(cancel_classifier_fallback_binary "long" 100 ⟨1, -1, .unparseable⟩ rfl).1,
    (cancel_classifier_fallback_binary "long" 100 ⟨1, -1, .unparseable⟩ rfl).2.1⟩

/-- C2 counterexample: on a spec with no positive minimum order size, coin
quantity `0.5` (formatted contract size `0.500`) passes the formatting,
leverage and minimum-notional gates of `OpenLong`, yet the constructed
payload has `Size = 0`, which is not positive. -/
theorem open_long_zero_size_counterexample :
    OpenLong envC "BTCUSDT" (1/2) 10 = .ok orderC ∧ orderC.size = 0 := by
  have hfq : FormatQuantity envC (1/2) = .ok ⟨1/2, 3⟩ := by
    rw [formatQuantity_some (1/2) (rfl : envC.symbolSpec = some specC),
      (by decide : precisionOf specC.orderPriceRound = 3)]
    norm_num [convertCoinQuantityToContractSize, quantoMultiplierOf, fround,
      round_eq, specC]
  have hcm : CheckMinNotional envC (1/2) = .ok () := by
    norm_num [CheckMinNotional, envC, GetMinNotional]
  refine ⟨?_, rfl⟩
  rw [@openLong_eval envC "BTCUSDT" (1/2) 10 ⟨1/2, 3⟩ (by norm_num) hfq hcm]
  have hn : normalizeSymbolForGateIo "BTCUSDT".toList = "BTC_USDT".toList := by
    decide
  have ht : int64Trunc ((1:ℚ)/2) = 0 := by norm_num [int64Trunc]
  rw [hn]
  show Except.ok (⟨"BTC_USDT".toList, int64Trunc ((1:ℚ)/2), "0", false,
    "ioc", "t-gateio-futures"⟩ : FuturesOrder) = .ok orderC
  rw [ht]
  rfl

/-- C2 (amended): the constructed Size is nonnegative for `OpenLong` and
`CloseShort` and nonpositive for `OpenShort` and `CloseLong` (given a
nonnegative requested coin quantity), and is strictly positive
resp. strictly negative whenever the formatted contract size is at least
one contract; a formatted contract size strictly between 0 and 1
truncates to `Size = 0`. -/
theorem order_sign_convention (env : TraderEnv) (symbol : String) (q : ℚ)
    (lev : ℤ) (o : FuturesOrder) (hq : 0 ≤ q) :
    (OpenLong env symbol q lev = .ok o →
      0 ≤ o.size ∧
        (∀ fr, FormatQuantity env q = .ok fr → 1 ≤ fr.value → 0 < o.size)) ∧
    (OpenShort env symbol q lev = .ok o →
      o.size ≤ 0 ∧
        (∀ fr, FormatQuantity env q = .ok fr → 1 ≤ fr.value → o.size < 0)) ∧
    (CloseLong env symbol q = .ok o →
      o.size ≤ 0 ∧
        (∀ fr, FormatQuantity env (closeLongQuantity env symbol q) = .ok fr →
          1 ≤ fr.value → o.size < 0)) ∧
    (CloseShort env symbol q = .ok o →
      0 ≤ o.size ∧
        (∀ fr, FormatQuantity env (closeShortQuantity env symbol q) = .ok fr →
          1 ≤ fr.value → 0 < o.size)) := by
  refine ⟨?_, ?_, ?_, ?_⟩
  · intro h
    obtain ⟨fr, hfq, ho⟩ := openLong_ok h
    subst ho
    refine ⟨int64Trunc_nonneg (formatOk_nonneg hq hfq), ?_⟩
    intro fr' hfq' hone
    rw [hfq] at hfq'
    injection hfq' with e
    subst e
    exact lt_of_lt_of_le zero_lt_one (one_le_int64Trunc hone)
  · intro h
    obtain ⟨fr, hfq, ho⟩ := openShort_ok h
    subst ho
    refine ⟨?_, ?_⟩
    · show int64Trunc (-fr.value) ≤ 0
      rw [int64Trunc_neg]
      exact neg_nonpos.mpr (int64Trunc_nonneg (formatOk_nonneg hq hfq))
    · intro fr' hfq' hone
      rw [hfq] at hfq'
      injection hfq' with e
      subst e
      show int64Trunc (-fr.value) < 0
      rw [int64Trunc_neg]
      exact neg_lt_zero.mpr (lt_of_lt_of_le zero_lt_one (one_le_int64Trunc hone))
  · intro h
    obtain ⟨fr, hne, hfq, ho⟩ := closeLong_ok h
    subst ho
    refine ⟨neg_nonpos.mpr (abs_nonneg _), ?_⟩
    intro fr' hfq' hone
    rw [hfq] at hfq'
    injection hfq' with e
    subst e
    show -|int64Trunc fr.value| < 0
    refine neg_lt_zero.mpr (lt_of_lt_of_le zero_lt_one ?_)
    exact le_trans (one_le_int64Trunc hone) (le_abs_self _)
  · intro h
    obtain ⟨fr, hne, hfq, ho⟩ := closeShort_ok h
    subst ho
    refine ⟨abs_nonneg _, ?_⟩
    intro fr' hfq' hone
    rw [hfq] at hfq'
    injection hfq' with e
    subst e
    show (0:ℤ) < |int64Trunc fr.value|
    refine lt_of_lt_of_le zero_lt_one ?_
    exact le_trans (one_le_int64Trunc hone) (le_abs_self _)

/-- C2 witness: on `envC`, coin quantity `2.5` opens long with a payload
of size 2 — nonnegative and, since the formatted contract size is ≥ 1,
strictly positive. -/
theorem order_sign_convention_witness :
    0 ≤ order2.size ∧ 0 < order2.size := by
  have hfq : FormatQuantity envC (5/2) = .ok ⟨5/2, 3⟩ := by
    rw [formatQuantity_some (5/2) (rfl : envC.symbolSpec = some specC),
      (by decide : precisionOf specC.orderPriceRound = 3)]
    norm_num [convertCoinQuantityToContractSize, quantoMultiplierOf, fround,
      round_eq, specC]
  have hcm : CheckMinNotional envC (5/2) = .ok () := by
    norm_num [CheckMinNotional, envC, GetMinNotional]
  have heval : OpenLong envC "BTCUSDT" (5/2) 10 = .ok order2 := by
    rw [@openLong_eval envC "BTCUSDT" (5/2) 10 ⟨5/2, 3⟩ (by norm_num) hfq hcm]
    have hn : normalizeSymbolForGateIo "BTCUSDT".toList = "BTC_USDT".toList := by
      decide
    have ht : int64Trunc ((5:ℚ)/2) = 2 := by norm_num [int64Trunc]
    rw [hn]
    show Except.ok (⟨"BTC_USDT".toList, int64Trunc ((5:ℚ)/2), "0", false,
      "ioc", "t-gateio-futures"⟩ : FuturesOrder) = .ok order2
    rw [ht]
    rfl
  have h :=
    (order_sign_convention envC "BTCUSDT" (5/2) 10 order2 (by norm_num)).1 heval
  exact ⟨h.1, h.2 ⟨5/2, 3⟩ hfq (by norm_num)⟩

/-- C3: closing with coin quantity 0 resolves the live quantity from the
cached positions of the requested side; with no such position the call
fails `noOpenPosition` (and submits nothing), and with one it submits the
reduce-only IOC market order for exactly the resolved quantity converted
to contracts. -/
theorem close_full_position_resolution (env : TraderEnv) (symbol : String) :
    (env.positions.find? (fun r => r.symbol == symbol && r.side == "long")
        = none → CloseLong env symbol 0 = .error .noOpenPosition) ∧
    (env.positions.find? (fun r => r.symbol == symbol && r.side == "short")
        = none → CloseShort env symbol 0 = .error .noOpenPosition) ∧
    (∀ p fr,
      env.positions.find? (fun r => r.symbol == symbol && r.side == "long")
          = some p →
      p.positionAmt ≠ 0 → FormatQuantity env p.positionAmt = .ok fr →
      CloseLong env symbol 0 =
        .ok ⟨normalizeSymbolForGateIo symbol.toList, -|int64Trunc fr.value|,
          "0", true, "ioc", "t-gateio-futures-close"⟩) ∧
    (∀ p fr,
      env.positions.find? (fun r => r.symbol == symbol && r.side == "short")
          = some p →
      p.positionAmt ≠ 0 → FormatQuantity env p.positionAmt = .ok fr →
      CloseShort env symbol 0 =
        .ok ⟨normalizeSymbolForGateIo symbol.toList, |int64Trunc fr.value|,
          "0", true, "ioc", "t-gateio-futures-close"⟩) := by
  refine ⟨?_, ?_, ?_, ?_⟩
  · intro hfind
    have hq : closeLongQuantity env symbol 0 = 0 := by
      unfold closeLongQuantity
      rw [if_pos rfl, hfind]
    unfold CloseLong
    rw [hq, if_pos rfl]
  · intro hfind
    have hq : closeShortQuantity env symbol 0 = 0 := by
      unfold closeShortQuantity
      rw [if_pos rfl, hfind]
    unfold CloseShort
    rw [hq, if_pos rfl]
  · intro p fr hfind hne hfq
    have hq : closeLongQuantity env symbol 0 = p.positionAmt := by
      unfold closeLongQuantity
      rw [if_pos rfl, hfind]
    exact closeLong_eval (by rw [hq]; exact hne) (by rw [hq]; exact hfq)
  · intro p fr hfind hne hfq
    have hq : closeShortQuantity env symbol 0 = p.positionAmt := by
      unfold closeShortQuantity
      rw [if_pos rfl, hfind]
    exact closeShort_eval (by rw [hq]; exact hne) (by rw [hq]; exact hfq)

/-- C3 witness: on `envD` (cached long position of `0.002` coin,
multiplier `0.0001`), a full close of the long side submits the
reduce-only IOC order of −20 contracts, and a full close of the (absent)
short side fails `noOpenPosition`. -/
theorem close_full_position_resolution_witness :
    CloseLong envD "BTCUSDT" 0 = .ok closeOrderD ∧
      CloseShort envD "BTCUSDT" 0 = .error TradeError.noOpenPosition := by
  have hfq : FormatQuantity envD (2/1000) = .ok ⟨20, 3⟩ := by
    rw [formatQuantity_some (2/1000) (rfl : envD.symbolSpec = some specA),
      (by decide : precisionOf specA.orderPriceRound = 3)]
    norm_num [convertCoinQuantityToContractSize, quantoMultiplierOf, fround,
      round_eq, specA]
  have h := close_full_position_resolution envD "BTCUSDT"
  constructor
  · have hc := h.2.2.1 ⟨"BTCUSDT", "long", 2/1000⟩ ⟨20, 3⟩ rfl
      (by norm_num) hfq
    rw [hc]
    have hn : normalizeSymbolForGateIo "BTCUSDT".toList = "BTC_USDT".toList := by
      decide
    have ht : int64Trunc ((20:ℚ)) = 20 := by norm_num [int64Trunc]
    rw [hn]
    show Except.ok (⟨"BTC_USDT".toList, -|int64Trunc ((20:ℚ))|, "0", true,
      "ioc", "t-gateio-futures-close"⟩ : FuturesOrder) = .ok closeOrderD
    rw [ht]
    decide
  · exact h.2.1 rfl

/-- C10: every order size submitted by `OpenLong`, `OpenShort`,
`CloseLong`, `CloseShort`, `SetStopLoss` and `SetTakeProfit` is (up to
the operation's sign) the `int64` truncation toward zero of the contract
size produced by `FormatQuantity`, so fractional contract parts are
silently dropped. -/
theorem submitted_size_truncation (env : TraderEnv)
    (symbol positionSide : String) (q triggerPrice : ℚ) (lev : ℤ)
    (o : FuturesOrder) (po : FuturesPriceTriggeredOrder) :
    (∀ fr, FormatQuantity env q = .ok fr →
      (OpenLong env symbol q lev = .ok o → o.size = int64Trunc fr.value) ∧
      (OpenShort env symbol q lev = .ok o → o.size = int64Trunc (-fr.value)) ∧
      (SetStopLoss env symbol positionSide q triggerPrice = .ok po →
        po.initial.size = int64Trunc
          (if positionSide == "LONG" then -fr.value else fr.value)) ∧
      (SetTakeProfit env symbol positionSide q triggerPrice = .ok po →
        po.initial.size = int64Trunc
          (if positionSide == "LONG" then -fr.value else fr.value))) ∧
    (∀ fr, FormatQuantity env (closeLongQuantity env symbol q) = .ok fr →
      CloseLong env symbol q = .ok o → o.size = -|int64Trunc fr.value|) ∧
    (∀ fr, FormatQuantity env (closeShortQuantity env symbol q) = .ok fr →
      CloseShort env symbol q = .ok o → o.size = |int64Trunc fr.value|) := by
  refine ⟨fun fr hfq => ⟨?_, ?_, ?_, ?_⟩,
    fun fr hfq h => ?_, fun fr hfq h => ?_⟩
  · intro h
    obtain ⟨fr', hfq', ho⟩ := openLong_ok h
    rw [hfq] at hfq'
    injection hfq' with e
    subst e
    rw [ho]
  · intro h
    obtain ⟨fr', hfq', ho⟩ := openShort_ok h
    rw [hfq] at hfq'
    injection hfq' with e
    subst e
    rw [ho]
  · intro h
    obtain ⟨fr', hfq', ho⟩ := setStopLoss_ok h
    rw [hfq] at hfq'
    injection hfq' with e
    subst e
    rw [ho]
  · intro h
    obtain ⟨fr', hfq', ho⟩ := setTakeProfit_ok h
    rw [hfq] at hfq'
    injection hfq' with e
    subst e
    rw [ho]
  · obtain ⟨fr', hne, hfq', ho⟩ := closeLong_ok h
    rw [hfq] at hfq'
    injection hfq' with e
    subst e
    rw [ho]
  · obtain ⟨fr', hne, hfq', ho⟩ := closeShort_ok h
    rw [hfq] at hfq'
    injection hfq' with e
    subst e
    rw [ho]

/-- C10 witness: on `envC` (minimum order size 0), the formatted contract
size `0.500` for coin quantity `0.5` succeeds, and `OpenLong` submits the
truncation of `0.5` — that is, size 0. -/
theorem submitted_size_truncation_witness :
    specC.orderSizeMin ≤ 0 ∧
      FormatQuantity envC (1/2) = .ok ⟨1/2, 3⟩ ∧
      (0:ℚ) < (⟨1/2, 3⟩ : FmtResult).value ∧
      (⟨1/2, 3⟩ : FmtResult).value < 1 ∧
      OpenLong envC "BTCUSDT" (1/2) 10 = .ok orderC ∧
      orderC.size = int64Trunc ((⟨1/2, 3⟩ : FmtResult).value) ∧
      orderC.size = 0 := by
  have hfq : FormatQuantity envC (1/2) = .ok ⟨1/2, 3⟩ := by
    rw [formatQuantity_some (1/2) (rfl : envC.symbolSpec = some specC),
      (by decide : precisionOf specC.orderPriceRound = 3)]
    norm_num [convertCoinQuantityToContractSize, quantoMultiplierOf, fround,
      round_eq, specC]
  have hcm : CheckMinNotional envC (1/2) = .ok () := by
    norm_num [CheckMinNotional, envC, GetMinNotional]
  have heval : OpenLong envC "BTCUSDT" (1/2) 10 = .ok orderC := by
    rw [@openLong_eval envC "BTCUSDT" (1/2) 10 ⟨1/2, 3⟩ (by norm_num) hfq hcm]
    have hn : normalizeSymbolForGateIo "BTCUSDT".toList = "BTC_USDT".toList := by
      decide
    have ht : int64Trunc ((1:ℚ)/2) = 0 := by norm_num [int64Trunc]
    rw [hn]
    show Except.ok (⟨"BTC_USDT".toList, int64Trunc ((1:ℚ)/2), "0", false,
      "ioc", "t-gateio-futures"⟩ : FuturesOrder) = .ok orderC
    rw [ht]
    rfl
  refine ⟨by decide, hfq, by norm_num, by norm_num, heval, ?_, rfl⟩
  exact ((submitted_size_truncation envC "BTCUSDT" "LONG" (1/2) 90 10 orderC
    stopOrderC).1 ⟨1/2, 3⟩ hfq).1 heval

/-- C7 witness: the amended statement at the concrete symbol `ABCDE`. -/
theorem fallback_insert_four_from_end_witness :
    sep ∉ "ABCDE".toList ∧ 4 < "ABCDE".toList.length ∧
      normalizeSymbolForGateIo "ABCDE".toList =
        insertSepFourFromEnd_spec "ABCDE".toList :=
  ⟨by decide, by decide,
    fallback_insert_four_from_end _ (by decide)
      (by decide) (by decide)⟩

end Nofx
